import Mathlib

/-!
Verification of the task-scheduling core of the YYS game-helper repository.

The development shallowly embeds the two core modules the claims are about:

* `core/scheduler.py` — the `TaskPriority` / `TaskState` enumerations, the
  `TaskContext` value object, the `InterruptibleTask` lifecycle
  (`execute`, `resume`, `check_interruption`), and the `TaskScheduler`
  (priority queue, running-task registry, resource triggers,
  `_execute_task`).
* `core/hybrid_task.py` — the `StateMachine`, the `EventBus`, and the
  `HybridTask` driver loop `_run` with its page detectors.

Python dictionaries are embedded as association lists with
insert-or-overwrite semantics (`dictInsert` / `dictGet?`); `threading.Event`
signals are booleans, with cross-thread reads supplied by the environment
where a value may change between two reads; wall-clock times are naturals;
a raised exception is identified by its message string.  Calls into
caller-supplied code (handlers, callbacks, detectors, triggers, the
subclass hooks of `HybridTask`) are embedded by their observable behaviour:
return a value, or raise.
-/

namespace YYS

/-- Raised exception values, identified by their message. -/
abbrev Err := String

/-- Python `TaskPriority` enumeration; `value` below is the integer each
member carries, and a lower value is served first. -/
inductive TaskPriority where
  | critical
  | high
  | normal
  | low
deriving DecidableEq

/-- Integer carried by each `TaskPriority` member. -/
def TaskPriority.value : TaskPriority → Nat
  | .critical => 0
  | .high => 1
  | .normal => 2
  | .low => 3

/-- Python `TaskState` enumeration. -/
inductive TaskState where
  | pending
  | running
  | paused
  | interrupted
  | completed
  | failed
  | cancelled
deriving DecidableEq

/-- Python `TaskContext` dataclass.  Progress is a rational (0.0 – 1.0 in the
source); the timestamps are optional naturals.  The free-form `data` mapping
and the checkpoint list are not modelled: no claim under verification
inspects them. -/
structure TaskContext where
  task_id : String
  name : String
  priority : TaskPriority
  state : TaskState := .pending
  progress : Rat := 0
  start_time : Option Nat := none
  pause_time : Option Nat := none
  resume_time : Option Nat := none
deriving DecidableEq

/-- Python `InterruptibleTask`: identity, its `TaskContext`, and the two
cooperative `threading.Event` signals as booleans. -/
structure InterruptibleTask where
  task_id : String
  name : String
  priority : TaskPriority
  context : TaskContext
  should_stop : Bool := false
  should_pause : Bool := false
deriving DecidableEq

/-- Construction of an `InterruptibleTask` (its `__init__`): a fresh context
in state PENDING, both signals clear. -/
def InterruptibleTask.make (task_id name : String) (priority : TaskPriority) :
    InterruptibleTask :=
  { task_id := task_id, name := name, priority := priority,
    context := { task_id := task_id, name := name, priority := priority } }

/-- Observable outcome of one call to a task's work routine `_run`: a normal
return value, a raised `InterruptedException` (carrying its message), or any
other raised exception. -/
inductive RunOutcome (α : Type) where
  | ok (v : α)
  | interrupted (msg : String)
  | error (e : Err)
deriving DecidableEq

/-- What `execute` does at its own call site: return a value (possibly
`None`), or re-raise an exception. -/
inductive ExecResult (α : Type) where
  | returns (v : Option α)
  | raises (e : Err)
deriving DecidableEq

/-- Python `InterruptibleTask.execute`: transition the context to RUNNING and
record the start time; then, depending on what the work routine does —
normal return: COMPLETED with progress forced to `1.0`, returning the
result; `InterruptedException`: INTERRUPTED, returning `None`; any other
exception: FAILED, re-raising it.  The work routine's behaviour is the
`run` argument. -/
def InterruptibleTask.execute {α : Type} (t : InterruptibleTask) (now : Nat)
    (run : RunOutcome α) : InterruptibleTask × ExecResult α :=
  let t1 : InterruptibleTask :=
    { t with context := { t.context with state := .running, start_time := some now } }
  match run with
  | .ok v =>
      ({ t1 with context := { t1.context with state := .completed, progress := 1 } },
       .returns (some v))
  | .interrupted _ =>
      ({ t1 with context := { t1.context with state := .interrupted } },
       .returns none)
  | .error e =>
      ({ t1 with context := { t1.context with state := .failed } },
       .raises e)

/-- Python `InterruptibleTask.request_stop`: set the stop signal. -/
def InterruptibleTask.request_stop (t : InterruptibleTask) : InterruptibleTask :=
  { t with should_stop := true }

/-- Python `InterruptibleTask.request_pause`: set the pause signal. -/
def InterruptibleTask.request_pause (t : InterruptibleTask) : InterruptibleTask :=
  { t with should_pause := true }

/-- Python `InterruptibleTask.resume`: unconditionally clear the pause
signal, record the resume time, and set the context state back to
RUNNING. -/
def InterruptibleTask.resume (t : InterruptibleTask) (now : Nat) : InterruptibleTask :=
  { t with should_pause := false,
           context := { t.context with resume_time := some now, state := .running } }

/-- Outcome of one call to `check_interruption`: a normal return, or a raised
`InterruptedException`. -/
inductive CheckOutcome where
  | returned
  | interruptedRaised (msg : String)
deriving DecidableEq

/-- Python `InterruptibleTask.check_interruption`, acting on the task's
context.  The two signals are set by other threads, so their values at each
read are supplied by the environment: `stop` and `pause` are the values of
`_should_stop.is_set()` / `_should_pause.is_set()` observed at this call,
and when the pause branch is taken, `waitEndsInStop` tells whether the
busy-wait loop ended because stop was requested (raising) rather than
because the pause signal was cleared (whereupon `resume` runs). -/
def check_interruption (ctx : TaskContext) (stop pause waitEndsInStop : Bool)
    (now : Nat) : TaskContext × CheckOutcome :=
  if stop then (ctx, .interruptedRaised "task stop requested")
  else if pause then
    let ctx1 : TaskContext := { ctx with state := .paused, pause_time := some now }
    if waitEndsInStop then (ctx1, .interruptedRaised "stopped while paused")
    else ({ ctx1 with resume_time := some now, state := .running }, .returned)
  else (ctx, .returned)

/-- Lookup in an association list standing for a Python dictionary. -/
def dictGet? {κ ν : Type} [DecidableEq κ] (d : List (κ × ν)) (k : κ) : Option ν :=
  (d.find? (fun e => e.1 == k)).map (fun e => e.2)

/-- Dictionary insertion: overwrite the value when the key is present
(keeping the key's position), otherwise append a new binding. -/
def dictInsert {κ ν : Type} [DecidableEq κ] (d : List (κ × ν)) (k : κ) (v : ν) :
    List (κ × ν) :=
  if d.any (fun e => e.1 == k) then
    d.map (fun e => if e.1 == k then (k, v) else e)
  else d ++ [(k, v)]

/-- Python `PageState` enumeration of `core/hybrid_task.py`. -/
inductive PageState where
  | unknown
  | main_menu
  | kekkai_toppa
  | kekkai_selection
  | battle
  | battle_result
  | inventory_full
  | error
deriving DecidableEq

/-- Python `TaskEvent` enumeration of `core/hybrid_task.py`. -/
inductive TaskEvent where
  | page_changed
  | battle_started
  | battle_ended
  | inventory_full
  | resource_low
  | error_occurred
  | user_interrupt
  | timeout
deriving DecidableEq

/-- Observable behaviour of one invocation of a registered handler or
callback: return normally, or raise. -/
inductive HandlerB where
  | ok
  | raises (e : Err)
deriving DecidableEq

/-- Whether an optionally registered handler raises when invoked. -/
def raisesB : Option HandlerB → Bool
  | some (.raises _) => true
  | _ => false

/-- Python `EventData` dataclass; the free-form payload mapping is not
modelled (no claim under verification inspects it). -/
structure EventData where
  event_type : TaskEvent
  timestamp : Nat
  source : String := "system"
deriving DecidableEq

/-- Python `StateMachine` of `core/hybrid_task.py`: current and previous
state, the transition table, and the two handler tables (all Python
dictionaries). -/
structure StateMachine where
  current_state : PageState
  previous_state : Option PageState := none
  transitions : List ((PageState × TaskEvent) × PageState) := []
  state_handlers : List (PageState × HandlerB) := []
  transition_handlers : List ((PageState × PageState) × HandlerB) := []
deriving DecidableEq

/-- Python `StateMachine.add_transition`. -/
def StateMachine.add_transition (sm : StateMachine) (from_state : PageState)
    (event : TaskEvent) (to_state : PageState) : StateMachine :=
  { sm with transitions := dictInsert sm.transitions (from_state, event) to_state }

/-- Python `StateMachine.add_state_handler` (the handler is embedded by its
behaviour when invoked). -/
def StateMachine.add_state_handler (sm : StateMachine) (state : PageState)
    (handler : HandlerB) : StateMachine :=
  { sm with state_handlers := dictInsert sm.state_handlers state handler }

/-- Python `StateMachine.add_transition_handler`. -/
def StateMachine.add_transition_handler (sm : StateMachine)
    (from_state to_state : PageState) (handler : HandlerB) : StateMachine :=
  { sm with transition_handlers :=
      dictInsert sm.transition_handlers (from_state, to_state) handler }

/-- Python `StateMachine.handle_event`: look up `(current_state, event)` in
the transition table — absent means return `false` with nothing changed;
invoke the registered transition handler, a raised error being caught,
logged and aborting the transition (`false`, nothing changed); otherwise
commit `previous_state := old`, `current_state := new`, invoke the new
state's entry handler — a raised error being caught and logged without
reverting the committed transition — and return `true`. -/
def StateMachine.handle_event (sm : StateMachine) (event : TaskEvent) :
    StateMachine × Bool :=
  match dictGet? sm.transitions (sm.current_state, event) with
  | none => (sm, false)
  | some new_state =>
    let old_state := sm.current_state
    if raisesB (dictGet? sm.transition_handlers (old_state, new_state)) then
      (sm, false)
    else
      let sm1 : StateMachine :=
        { sm with previous_state := some old_state, current_state := new_state }
      match dictGet? sm1.state_handlers new_state with
      | some HandlerB.ok => (sm1, true)
      | some (HandlerB.raises _) => (sm1, true)
      | none => (sm1, true)

/-- Python `StateMachine.can_transition`. -/
def StateMachine.can_transition (sm : StateMachine) (event : TaskEvent) : Bool :=
  (dictGet? sm.transitions (sm.current_state, event)).isSome

/-- Subscribed callback of the event bus: an identity (so invocations can be
counted) together with its behaviour when invoked. -/
abbrev Listener := Nat × HandlerB

/-- Python `EventBus` of `core/hybrid_task.py`: the
`defaultdict(list)` from event type to subscribed callbacks, and the
pending-event queue. -/
structure EventBus where
  listeners : List (TaskEvent × List Listener) := []
  event_queue : List EventData := []
deriving DecidableEq

/-- Python `EventBus.subscribe`: append the callback to its event type's
list (`defaultdict(list)` semantics: a missing key starts from the empty
list). -/
def EventBus.subscribe (bus : EventBus) (event_type : TaskEvent) (cb : Listener) :
    EventBus :=
  if bus.listeners.any (fun e => e.1 == event_type) then
    { bus with
        listeners :=
          bus.listeners.map (fun e => if e.1 == event_type then (e.1, e.2 ++ [cb]) else e) }
  else
    { bus with listeners := bus.listeners ++ [(event_type, [cb])] }

/-- Notification loop of `EventBus.publish`: every currently subscribed
callback is invoked in subscription order; a callback that raises is caught
and logged, and the remaining callbacks still run.  Returns the invocation
log as (callback identity, event) pairs. -/
def invokeAll : List Listener → EventData → List (Nat × EventData)
  | [], _ => []
  | (i, .ok) :: rest, e => (i, e) :: invokeAll rest e
  | (i, .raises _) :: rest, e => (i, e) :: invokeAll rest e

/-- Python `EventBus.publish`: append the event to the pending queue, then
synchronously invoke every callback subscribed to the event's type. -/
def EventBus.publish (bus : EventBus) (e : EventData) :
    EventBus × List (Nat × EventData) :=
  let bus1 : EventBus := { bus with event_queue := bus.event_queue ++ [e] }
  (bus1, invokeAll ((dictGet? bus1.listeners e.event_type).getD []) e)

/-- Iterated `publish` over a list of events, in order, concatenating the
invocation logs. -/
def publishAll : EventBus → List EventData → EventBus × List (Nat × EventData)
  | bus, [] => (bus, [])
  | bus, e :: es =>
    let p := bus.publish e
    let q := publishAll p.1 es
    (q.1, p.2 ++ q.2)

/-- Python `EventBus.process_events`: return a snapshot of the pending
queue and clear it. -/
def EventBus.process_events (bus : EventBus) : EventBus × List EventData :=
  ({ bus with event_queue := [] }, bus.event_queue)

/-- Observable behaviour of one call to a zero-argument boolean callable (a
resource trigger or a page detector): return a boolean, or raise. -/
inductive PredB where
  | ret (b : Bool)
  | raises (e : Err)
deriving DecidableEq

/-- Entry of the scheduler's pending queue as built by `submit_task`:
`((priority value, execute time), task id)`. -/
abbrev PQEntry := (Nat × Nat) × String

/-- Order on queue keys used by the priority queue: priority ascending,
then scheduled time ascending (lexicographic comparison of the
`(priority, execute_time)` pairs). -/
def pqLe (a b : Nat × Nat) : Bool :=
  decide (a.1 < b.1 ∨ (a.1 = b.1 ∧ a.2 ≤ b.2))

/-- Removal of a minimal entry from the pending queue (what
`task_queue.get()` does); among entries with equal keys the
earliest-enqueued one is returned. -/
def pqGet : List PQEntry → Option (PQEntry × List PQEntry)
  | [] => none
  | e :: es =>
    match pqGet es with
    | none => some (e, [])
    | some (m, rest) => if pqLe e.1 m.1 then some (e, es) else some (m, e :: rest)

/-- Mutable fields of Python `TaskScheduler` that the claims are about.  The
running-task registry is tracked by its key set (the ids of the currently
executing tasks); the pending queue holds `PQEntry` values; the context
registry, resource triggers and cleanup-task list follow the source
directly. -/
structure SchedulerState where
  task_queue : List PQEntry := []
  running_tasks : List String := []
  task_contexts : List (String × TaskContext) := []
  resource_triggers : List PredB := []
  cleanup_tasks : List String := []
deriving DecidableEq

/-- Python `TaskScheduler.submit_task`: compute the execute time
`now + delay`, enqueue `((priority value, execute time), task id)`, and
record the task's context in the status registry. -/
def submit_task (st : SchedulerState) (t : InterruptibleTask) (now delay : Nat) :
    SchedulerState :=
  { st with
      task_queue := st.task_queue ++ [((t.priority.value, now + delay), t.task_id)],
      task_contexts := dictInsert st.task_contexts t.task_id t.context }

/-- Python `TaskScheduler.add_resource_trigger`: append the trigger, and
append the cleanup-task id only when it is not already present. -/
def add_resource_trigger (st : SchedulerState) (trigger : PredB)
    (cleanup_task_id : String) : SchedulerState :=
  { st with
      resource_triggers := st.resource_triggers ++ [trigger],
      cleanup_tasks :=
        if cleanup_task_id ∈ st.cleanup_tasks then st.cleanup_tasks
        else st.cleanup_tasks ++ [cleanup_task_id] }

/-- Indexed loop of Python `TaskScheduler.check_resource_triggers`: evaluate
the triggers in order from index `i`; on the first returning true, the
function returns `cleanup_tasks[i]` when `i` is in range and `None`
otherwise; a trigger that raises is caught and logged and the loop
continues. -/
def checkTriggersFrom (cleanups : List String) : Nat → List PredB → Option String
  | _, [] => none
  | i, PredB.ret true :: _ => cleanups.get? i
  | i, PredB.ret false :: rest => checkTriggersFrom cleanups (i + 1) rest
  | i, PredB.raises _ :: rest => checkTriggersFrom cleanups (i + 1) rest

/-- Python `TaskScheduler.check_resource_triggers`. -/
def check_resource_triggers (st : SchedulerState) : Option String :=
  checkTriggersFrom st.cleanup_tasks 0 st.resource_triggers

/-- Registry insertion `running_tasks[task_id] = task`, restricted to the
key set of the dictionary. -/
def regInsert (reg : List String) (i : String) : List String :=
  if i ∈ reg then reg else reg ++ [i]

/-- Registry deletion `del running_tasks[task_id]`. -/
def regErase (reg : List String) (i : String) : List String :=
  reg.filter (fun k => k != i)

/-- Python `TaskScheduler._execute_task`: insert the task into the running
registry, call `execute` inside a `try` whose handler catches and logs any
raised error (nothing is re-raised), and in the `finally` block delete the
registry entry when present.  Returns the final registry together with the
task as `execute` left it. -/
def execute_task {α : Type} (reg : List String) (t : InterruptibleTask)
    (now : Nat) (run : RunOutcome α) : List String × InterruptibleTask :=
  let reg1 := regInsert reg t.task_id
  let p := t.execute now run
  let reg2 := if t.task_id ∈ reg1 then regErase reg1 t.task_id else reg1
  (reg2, p.1)

/-- Order in which `TaskScheduler._scheduler_loop` begins executing queued
tasks: it repeatedly removes a minimal `(priority, execute_time)` entry and
runs it synchronously to completion before taking the next.  The fuel
argument bounds the number of dequeues observed. -/
def dispatchOrder : Nat → List PQEntry → List String
  | 0, _ => []
  | fuel + 1, q =>
    match pqGet q with
    | none => []
    | some p => p.1.2 :: dispatchOrder fuel p.2

/-- Python `HybridTask.add_page_detector`:
`page_detectors[page_state] = detector` (dictionary insert). -/
def add_page_detector (ds : List (PageState × PredB)) (s : PageState) (d : PredB) :
    List (PageState × PredB) :=
  dictInsert ds s d

/-- Python `HybridTask.detect_current_page`: try the registered detectors
in registration order; the first returning true names the page; one that
raises is caught and logged and the remaining detectors are still tried;
when none returns true the result is `PageState.unknown`. -/
def detect_current_page : List (PageState × PredB) → PageState
  | [] => .unknown
  | (s, PredB.ret true) :: _ => s
  | (_, PredB.ret false) :: rest => detect_current_page rest
  | (_, PredB.raises _) :: rest => detect_current_page rest

/-- Index of the first trigger in a list that returns true; triggers that
return false or raise are passed over. -/
def firstTrueIdx : List PredB → Option Nat
  | [] => none
  | PredB.ret true :: _ => some 0
  | _ :: rest => (firstTrueIdx rest).map (· + 1)

/-- Environment of one iteration of `HybridTask._run`'s main loop: the
values the cross-thread signals show at each read of this iteration
(`stopAtCond` at the `while` condition, `stopAtCheck` / `pauseAtCheck`
inside `check_interruption`), the wall clock, the behaviour of the
registered page detectors, whether the subclass hook
`_execute_state_logic` raises, and the result of the subclass hook
`_check_completion`. -/
structure HybridIter where
  stopAtCond : Bool := false
  stopAtCheck : Bool := false
  pauseAtCheck : Bool := false
  waitEndsInStop : Bool := false
  now : Nat := 0
  detectors : List (PageState × PredB) := []
  logicErr : Option Err := none
  complete : Bool := false

/-- What the `try` body of one iteration of `HybridTask._run` does: finish
normally (reporting `_check_completion`'s result), raise
`InterruptedException` out of `check_interruption`, or raise some other
exception.  `InterruptedException` is declared in the source as a subclass
of `Exception`. -/
inductive BodyOutcome where
  | ok (complete : Bool)
  | raisedInterrupted (msg : String)
  | raisedOther (e : Err)
deriving DecidableEq

/-- Body of the `try` block of one iteration of `HybridTask._run`:
(1) `check_interruption` — a raised `InterruptedException` aborts the body;
(2) `detect_current_page`, and when the detected page differs from the
state machine's current state, publish a PAGE_CHANGED event and feed
PAGE_CHANGED to the state machine; (3) drain the event queue through the
state machine in arrival order; (4) run `_execute_state_logic`, whose
raised error aborts the body; (5) report `_check_completion`. -/
def iterBody (it : HybridIter) (ctx : TaskContext) (sm : StateMachine)
    (bus : EventBus) : TaskContext × StateMachine × EventBus × BodyOutcome :=
  match check_interruption ctx it.stopAtCheck it.pauseAtCheck it.waitEndsInStop it.now with
  | (ctx1, .interruptedRaised msg) => (ctx1, sm, bus, .raisedInterrupted msg)
  | (ctx1, .returned) =>
    let current_page := detect_current_page it.detectors
    let smbus : StateMachine × EventBus :=
      if current_page ≠ sm.current_state then
        let p := bus.publish
          { event_type := .page_changed, timestamp := it.now, source := ctx.task_id }
        ((sm.handle_event .page_changed).1, p.1)
      else (sm, bus)
    let q := smbus.2.process_events
    let sm2 := q.2.foldl (fun m e => (m.handle_event e.event_type).1) smbus.1
    match it.logicErr with
    | some e => (ctx1, sm2, q.1, .raisedOther e)
    | none => (ctx1, sm2, q.1, .ok it.complete)

/-- Main loop `while not self._should_stop.is_set()` of `HybridTask._run`.
The per-iteration `except Exception` clause catches `raisedOther` AND
`raisedInterrupted` — `InterruptedException` being a subclass of
`Exception` — publishing an ERROR_OCCURRED event and breaking out of the
loop; `.ok true` (completion) also breaks; `.ok false` continues.  The list
of iteration environments drives the loop; an exhausted list ends the
observation. -/
def hybridLoop (tid : String) :
    List HybridIter → TaskContext → StateMachine → EventBus →
      TaskContext × StateMachine × EventBus
  | [], ctx, sm, bus => (ctx, sm, bus)
  | it :: rest, ctx, sm, bus =>
    if it.stopAtCond then (ctx, sm, bus)
    else
      match iterBody it ctx sm bus with
      | (ctx1, sm1, bus1, .ok true) => (ctx1, sm1, bus1)
      | (ctx1, sm1, bus1, .ok false) => hybridLoop tid rest ctx1 sm1 bus1
      | (ctx1, sm1, bus1, .raisedInterrupted _) =>
        (ctx1, sm1,
         (bus1.publish
           { event_type := .error_occurred, timestamp := it.now, source := tid }).1)
      | (ctx1, sm1, bus1, .raisedOther _) =>
        (ctx1, sm1,
         (bus1.publish
           { event_type := .error_occurred, timestamp := it.now, source := tid }).1)

/-- Python `HybridTask._run` as a whole: run the main loop, then `_cleanup`
and `return self._get_result()` — a normal return.  The work routine's
outcome is therefore `RunOutcome.ok ()` on every observed exit of the loop:
the cooperative-cancellation exception raised by `check_interruption`
never escapes `_run`, because the loop's `except Exception` clause catches
it. -/
def hybridRun (tid : String) (iters : List HybridIter) (ctx : TaskContext)
    (sm : StateMachine) (bus : EventBus) :
    TaskContext × StateMachine × EventBus × RunOutcome Unit :=
  let r := hybridLoop tid iters ctx sm bus
  (r.1, r.2.1, r.2.2, .ok ())

/-- Fixture: a freshly constructed hybrid task. -/
def tC1 : InterruptibleTask := InterruptibleTask.make "t1" "hybrid-task" .normal

/-- Fixture: a freshly constructed task that is not paused. -/
def t7 : InterruptibleTask := InterruptibleTask.make "t7" "idle-task" .normal

/-- Fixture: a state machine with an empty transition table. -/
def smC4 : StateMachine := { current_state := .unknown }

/-- Fixture: a state machine with one transition and an entry handler for
the target state that raises. -/
def smC5 : StateMachine :=
  { current_state := .unknown,
    transitions := [((.unknown, .page_changed), .main_menu)],
    state_handlers := [(.main_menu, .raises "entry handler failure")] }

/-- Fixture: a scheduler on which the cleanup id "clean" was registered
with two different predicates (the second of which fires). -/
def st8 : SchedulerState :=
  add_resource_trigger
    (add_resource_trigger ({} : SchedulerState) (PredB.ret false) "clean")
    (PredB.ret true) "clean"

/-- Fixture: a CRITICAL-priority task. -/
def tC3a : InterruptibleTask := InterruptibleTask.make "cleanup" "cleanup-task" .critical

/-- Fixture: a NORMAL-priority task. -/
def tC3b : InterruptibleTask := InterruptibleTask.make "explore" "explore-task" .normal

/-- Fixture: a task for the running-registry claim. -/
def t9 : InterruptibleTask := InterruptibleTask.make "t9" "worker-task" .high

/-- Fixture: three subscribed callbacks of one event type, the middle one
raising when invoked. -/
def subsC6 : List Listener := [(0, .ok), (1, .raises "listener failure"), (2, .ok)]

/-- Fixture: two events of the same type. -/
def esC6 : List EventData :=
  [{ event_type := .battle_ended, timestamp := 1, source := "w" },
   { event_type := .battle_ended, timestamp := 2, source := "w" }]

lemma pqLe_refl (a : Nat × Nat) : pqLe a a = true := by
  simp [pqLe]

lemma pqLe_total (a b : Nat × Nat) : pqLe a b = true ∨ pqLe b a = true := by
  simp only [pqLe, decide_eq_true_eq]; omega

lemma pqLe_trans {a b c : Nat × Nat} (h1 : pqLe a b = true) (h2 : pqLe b c = true) :
    pqLe a c = true := by
  simp only [pqLe, decide_eq_true_eq] at h1 h2 ⊢; omega

lemma pqGet_cons_none (y : PQEntry) {ys : List PQEntry} (hg : pqGet ys = none) :
    pqGet (y :: ys) = some (y, []) := by
  unfold pqGet
  rw [hg]

lemma pqGet_cons_some (y m : PQEntry) (ys rest : List PQEntry)
    (hg : pqGet ys = some (m, rest)) :
    pqGet (y :: ys) = if pqLe y.1 m.1 then some (y, ys) else some (m, y :: rest) := by
  unfold pqGet
  rw [hg]

lemma pqGet_eq_none {q : List PQEntry} (h : pqGet q = none) : q = [] := by
  cases q with
  | nil => rfl
  | cons e es =>
    exfalso
    cases hg : pqGet es with
    | none => rw [pqGet_cons_none e hg] at h; simp at h
    | some p =>
      rw [pqGet_cons_some e p.1 es p.2 (by rw [hg])] at h
      by_cases hc : pqLe e.1 p.1.1 = true
      · rw [if_pos hc] at h; simp at h
      · rw [if_neg hc] at h; simp at h

lemma pqGet_isMin : ∀ (q : List PQEntry) (e : PQEntry) (rest : List PQEntry),
    pqGet q = some (e, rest) → ∀ x ∈ q, pqLe e.1 x.1 = true := by
  intro q
  induction q with
  | nil => intro e rest h; simp [pqGet] at h
  | cons y ys ih =>
    intro e rest h x hx
    cases hg : pqGet ys with
    | none =>
      rw [pqGet_cons_none y hg] at h
      have hys : ys = [] := pqGet_eq_none hg
      subst hys
      injection h with h'
      injection h' with he hr
      subst he
      rcases List.mem_cons.mp hx with hxy | hxn
      · subst hxy; exact pqLe_refl _
      · simp at hxn
    | some p =>
      obtain ⟨m, r⟩ := p
      rw [pqGet_cons_some y m ys r hg] at h
      by_cases hc : pqLe y.1 m.1 = true
      · rw [if_pos hc] at h
        injection h with h'
        injection h' with he hr
        subst he
        rcases List.mem_cons.mp hx with hxy | hxys
        · subst hxy; exact pqLe_refl _
        · exact pqLe_trans hc (ih m r hg x hxys)
      · rw [if_neg hc] at h
        injection h with h'
        injection h' with he hr
        subst he
        have hmy : pqLe m.1 y.1 = true := by
          rcases pqLe_total y.1 m.1 with ht | ht
          · exact absurd ht hc
          · exact ht
        rcases List.mem_cons.mp hx with hxy | hxys
        · subst hxy; exact hmy
        · exact ih m r hg x hxys

lemma checkTriggersFrom_eq (cleanups : List String) :
    ∀ (l : List PredB) (i : Nat),
      checkTriggersFrom cleanups i l =
        (firstTrueIdx l).bind (fun j => cleanups.get? (i + j)) := by
  intro l
  induction l with
  | nil => intro i; rfl
  | cons hd tl ih =>
    intro i
    match hd with
    | PredB.ret true => simp [checkTriggersFrom, firstTrueIdx]
    | PredB.ret false =>
      rw [show checkTriggersFrom cleanups i (PredB.ret false :: tl)
            = checkTriggersFrom cleanups (i + 1) tl from rfl, ih (i + 1)]
      cases hf : firstTrueIdx tl with
      | none => simp [firstTrueIdx, hf]
      | some j =>
        simp only [firstTrueIdx, hf, Option.map_some', Option.some_bind]
        congr 1
        omega
    | PredB.raises e =>
      rw [show checkTriggersFrom cleanups i (PredB.raises e :: tl)
            = checkTriggersFrom cleanups (i + 1) tl from rfl, ih (i + 1)]
      cases hf : firstTrueIdx tl with
      | none => simp [firstTrueIdx, hf]
      | some j =>
        simp only [firstTrueIdx, hf, Option.map_some', Option.some_bind]
        congr 1
        omega

lemma invokeAll_eq (subs : List Listener) (e : EventData) :
    invokeAll subs e = subs.map (fun s => (s.1, e)) := by
  induction subs with
  | nil => rfl
  | cons hd tl ih =>
    obtain ⟨i, b⟩ := hd
    cases b <;> simp [invokeAll, ih]

lemma publish_listeners (bus : EventBus) (e : EventData) :
    (bus.publish e).1.listeners = bus.listeners := rfl

lemma publishAll_listeners (es : List EventData) : ∀ bus : EventBus,
    (publishAll bus es).1.listeners = bus.listeners := by
  induction es with
  | nil => intro bus; rfl
  | cons e es ih =>
    intro bus
    show (publishAll (bus.publish e).1 es).1.listeners = bus.listeners
    rw [ih]
    exact publish_listeners bus e

lemma publishAll_queue (es : List EventData) : ∀ bus : EventBus,
    (publishAll bus es).1.event_queue = bus.event_queue ++ es := by
  induction es with
  | nil => intro bus; simp [publishAll]
  | cons e es ih =>
    intro bus
    show (publishAll (bus.publish e).1 es).1.event_queue = bus.event_queue ++ (e :: es)
    rw [ih]
    simp [EventBus.publish]

lemma publishAll_log (τ : TaskEvent) (subs : List Listener) :
    ∀ (es : List EventData), (∀ e ∈ es, e.event_type = τ) →
      ∀ bus : EventBus, bus.listeners = [(τ, subs)] →
        (publishAll bus es).2 = es.flatMap (fun e => subs.map (fun s => (s.1, e))) := by
  intro es
  induction es with
  | nil => intro _ bus _; rfl
  | cons e es ih =>
    intro h bus hb
    have hτ : e.event_type = τ := h e (by simp)
    have hrest : ∀ x ∈ es, x.event_type = τ := fun x hx => h x (by simp [hx])
    show (bus.publish e).2 ++ (publishAll (bus.publish e).1 es).2 = _
    rw [ih hrest (bus.publish e).1 (by rw [publish_listeners, hb])]
    have hp : (bus.publish e).2 = subs.map (fun s => (s.1, e)) := by
      simp [EventBus.publish, hb, hτ, dictGet?, List.find?, invokeAll_eq]
    rw [hp]
    rfl

lemma log_filter_length (subs : List Listener) (sid : Nat) :
    ∀ es : List EventData,
      ((es.flatMap (fun e => subs.map (fun s => (s.1, e)))).filter
          (fun x => x.1 == sid)).length
        = (subs.filter (fun s => s.1 == sid)).length * es.length := by
  intro es
  induction es with
  | nil => simp
  | cons e es ih =>
    rw [List.flatMap_cons, List.filter_append, List.length_append, ih]
    have hseg : ((subs.map (fun s => (s.1, e))).filter (fun x => x.1 == sid)).length
        = (subs.filter (fun s => s.1 == sid)).length := by
      have hcomp : ((fun x : Nat × EventData => x.1 == sid) ∘ fun s : Listener => (s.1, e))
          = fun s : Listener => s.1 == sid := rfl
      rw [List.filter_map, hcomp, List.length_map]
    rw [hseg, List.length_cons]
    ring

/-- C1 (against the claim): on a `HybridTask` whose stop signal becomes set
during the first loop iteration (the `while` condition read it clear;
`check_interruption` at the top of the body reads it set, raising
`InterruptedException`), the loop's per-iteration `except Exception` clause
catches the cancellation signal — `InterruptedException` subclasses
`Exception` — publishes an ERROR_OCCURRED event and breaks; `_run` then
returns normally, so `execute` produces final context state COMPLETED, not
INTERRUPTED as the claim states. -/
theorem C1_stop_swallowed_yields_completed :
    (hybridRun "t1" [{ stopAtCheck := true }] tC1.context
        { current_state := PageState.unknown } ({} : EventBus)).2.2.1.event_queue.map
        (fun e => e.event_type) = [TaskEvent.error_occurred] ∧
    (tC1.execute 0
        (hybridRun "t1" [{ stopAtCheck := true }] tC1.context
          { current_state := PageState.unknown } ({} : EventBus)).2.2.2).1.context.state
      = TaskState.completed ∧
    (tC1.execute 0
        (hybridRun "t1" [{ stopAtCheck := true }] tC1.context
          { current_state := PageState.unknown } ({} : EventBus)).2.2.2).1.context.state
      ≠ TaskState.interrupted := by
  decide

/-- C2: `execute` has exactly three outcomes.  Normal return of the work
routine: context state COMPLETED, progress forced to 1.0, the result
returned; `InterruptedException`: state INTERRUPTED, `None` returned
without re-raising; any other error: state FAILED and the error re-raised
to the caller. -/
theorem C2_execute_three_outcomes {α : Type} (t : InterruptibleTask) (now : Nat)
    (v : α) (msg : String) (e : Err) :
    ((t.execute now (.ok v)).1.context.state = TaskState.completed ∧
      (t.execute now (.ok v)).1.context.progress = 1 ∧
      (t.execute now (.ok v)).2 = ExecResult.returns (some v)) ∧
    ((t.execute now (RunOutcome.interrupted msg : RunOutcome α)).1.context.state
        = TaskState.interrupted ∧
      (t.execute now (RunOutcome.interrupted msg : RunOutcome α)).2
        = ExecResult.returns none) ∧
    ((t.execute now (RunOutcome.error e : RunOutcome α)).1.context.state
        = TaskState.failed ∧
      (t.execute now (RunOutcome.error e : RunOutcome α)).2 = ExecResult.raises e) :=
  ⟨⟨rfl, rfl, rfl⟩, ⟨rfl, rfl⟩, ⟨rfl, rfl⟩⟩

/-- C3: for two tasks with strictly ordered priority values and equal ready
times, both submitted before either executes, the dispatch loop begins
executing the higher-priority task first — in either submission order —
and, in general, every dequeue returns an entry minimal in the
priority-then-scheduled-time order. -/
theorem C3_priority_dispatch (t1 t2 : InterruptibleTask) (now : Nat)
    (h : t1.priority.value < t2.priority.value) :
    dispatchOrder 2
        (submit_task (submit_task ({} : SchedulerState) t1 now 0) t2 now 0).task_queue
      = [t1.task_id, t2.task_id] ∧
    dispatchOrder 2
        (submit_task (submit_task ({} : SchedulerState) t2 now 0) t1 now 0).task_queue
      = [t1.task_id, t2.task_id] ∧
    (∀ (q : List PQEntry) (e : PQEntry) (rest : List PQEntry),
      pqGet q = some (e, rest) → ∀ x ∈ q, pqLe e.1 x.1 = true) := by
  have h12 : pqLe (t1.priority.value, now) (t2.priority.value, now) = true := by
    simp only [pqLe, decide_eq_true_eq]
    omega
  have h21 : pqLe (t2.priority.value, now) (t1.priority.value, now) = false := by
    simp only [pqLe]
    exact decide_eq_false (by omega)
  refine ⟨?_, ?_, pqGet_isMin⟩
  · have hq2 : pqGet [((t2.priority.value, now), t2.task_id)]
        = some (((t2.priority.value, now), t2.task_id), []) :=
      pqGet_cons_none _ rfl
    have hq12 := pqGet_cons_some ((t1.priority.value, now), t1.task_id)
      ((t2.priority.value, now), t2.task_id) [((t2.priority.value, now), t2.task_id)] [] hq2
    rw [if_pos h12] at hq12
    simp [submit_task, dispatchOrder, hq12, hq2]
  · have hq1 : pqGet [((t1.priority.value, now), t1.task_id)]
        = some (((t1.priority.value, now), t1.task_id), []) :=
      pqGet_cons_none _ rfl
    have hq21 := pqGet_cons_some ((t2.priority.value, now), t2.task_id)
      ((t1.priority.value, now), t1.task_id) [((t1.priority.value, now), t1.task_id)] [] hq1
    rw [if_neg (by simp [h21])] at hq21
    have hq2 : pqGet [((t2.priority.value, now), t2.task_id)]
        = some (((t2.priority.value, now), t2.task_id), []) :=
      pqGet_cons_none _ rfl
    simp [submit_task, dispatchOrder, hq21, hq2]

/-- C3 witness: the CRITICAL-priority task is dispatched before the
NORMAL-priority one at equal ready times, in either submission order. -/
theorem C3_priority_dispatch_witness :
    tC3a.priority.value < tC3b.priority.value ∧
    (dispatchOrder 2
        (submit_task (submit_task ({} : SchedulerState) tC3a 7 0) tC3b 7 0).task_queue
      = [tC3a.task_id, tC3b.task_id] ∧
    dispatchOrder 2
        (submit_task (submit_task ({} : SchedulerState) tC3b 7 0) tC3a 7 0).task_queue
      = [tC3a.task_id, tC3b.task_id] ∧
    (∀ (q : List PQEntry) (e : PQEntry) (rest : List PQEntry),
      pqGet q = some (e, rest) → ∀ x ∈ q, pqLe e.1 x.1 = true)) :=
  ⟨by decide, C3_priority_dispatch tC3a tC3b 7 (by decide)⟩

/-- C4: whenever `handle_event` returns false — because no transition is
defined for (current state, event), or because the registered transition
handler raised — both `current_state` and `previous_state` are left
unchanged. -/
theorem C4_handle_event_false_unchanged (sm : StateMachine) (event : TaskEvent)
    (h : (sm.handle_event event).2 = false) :
    (sm.handle_event event).1.current_state = sm.current_state ∧
    (sm.handle_event event).1.previous_state = sm.previous_state := by
  cases htr : dictGet? sm.transitions (sm.current_state, event) with
  | none => simp [StateMachine.handle_event, htr]
  | some ns =>
    by_cases hh : raisesB (dictGet? sm.transition_handlers (sm.current_state, ns)) = true
    · simp [StateMachine.handle_event, htr, hh]
    · exfalso
      rcases hsh : dictGet? sm.state_handlers ns with _ | hb
      · simp [StateMachine.handle_event, htr, hh, hsh] at h
      · cases hb <;> simp [StateMachine.handle_event, htr, hh, hsh] at h

/-- C4 witness: on a machine with an empty transition table, `handle_event`
returns false and leaves both states unchanged. -/
theorem C4_handle_event_false_unchanged_witness :
    (smC4.handle_event TaskEvent.timeout).2 = false ∧
    ((smC4.handle_event TaskEvent.timeout).1.current_state = smC4.current_state ∧
     (smC4.handle_event TaskEvent.timeout).1.previous_state = smC4.previous_state) :=
  ⟨by decide, C4_handle_event_false_unchanged smC4 TaskEvent.timeout (by decide)⟩

/-- C5: when a transition is defined for (current state, event) and the
registered transition handler (if any) does not raise, `handle_event`
commits `previous_state :=` the old current state and `current_state :=`
the mapped new state and returns true — regardless of whether the new
state's entry handler raises (the committed transition is not reverted and
true is still returned). -/
theorem C5_handle_event_commit (sm : StateMachine) (event : TaskEvent) (ns : PageState)
    (h1 : dictGet? sm.transitions (sm.current_state, event) = some ns)
    (h2 : raisesB (dictGet? sm.transition_handlers (sm.current_state, ns)) = false) :
    (sm.handle_event event).1.previous_state = some sm.current_state ∧
    (sm.handle_event event).1.current_state = ns ∧
    (sm.handle_event event).2 = true := by
  rcases hsh : dictGet? sm.state_handlers ns with _ | hb
  · simp [StateMachine.handle_event, h1, h2, hsh]
  · cases hb <;> simp [StateMachine.handle_event, h1, h2, hsh]

/-- C5 witness: on `smC5` the transition (UNKNOWN, PAGE_CHANGED) →
MAIN_MENU commits and returns true even though the MAIN_MENU entry handler
raises. -/
theorem C5_handle_event_commit_witness :
    dictGet? smC5.transitions (smC5.current_state, TaskEvent.page_changed)
      = some PageState.main_menu ∧
    raisesB (dictGet? smC5.transition_handlers (smC5.current_state, PageState.main_menu))
      = false ∧
    ((smC5.handle_event TaskEvent.page_changed).1.previous_state = some smC5.current_state ∧
     (smC5.handle_event TaskEvent.page_changed).1.current_state = PageState.main_menu ∧
     (smC5.handle_event TaskEvent.page_changed).2 = true) :=
  ⟨by decide, by decide,
   C5_handle_event_commit smC5 TaskEvent.page_changed PageState.main_menu
     (by decide) (by decide)⟩

/-- C6: publishing N events of one type on a bus with the subscribers
`subs` of that type invokes, for each event in publish order, every
subscriber in subscription order (raising subscribers included — their
errors are caught and the rest still run), so each subscriber is invoked
exactly N times; one `process_events` call returns exactly the N published
events in publish order and clears the queue, and an immediately following
call returns the empty list. -/
theorem C6_event_bus (τ : TaskEvent) (subs : List Listener) (es : List EventData)
    (h : ∀ e ∈ es, e.event_type = τ) :
    (publishAll { listeners := [(τ, subs)] } es).2
        = es.flatMap (fun e => subs.map (fun s => (s.1, e))) ∧
    (∀ sid : Nat,
      ((publishAll { listeners := [(τ, subs)] } es).2.filter
          (fun x => x.1 == sid)).length
        = (subs.filter (fun s => s.1 == sid)).length * es.length) ∧
    (publishAll { listeners := [(τ, subs)] } es).1.process_events.2 = es ∧
    ((publishAll { listeners := [(τ, subs)] } es).1.process_events.1.process_events).2
      = [] := by
  have hlog := publishAll_log τ subs es h { listeners := [(τ, subs)] } rfl
  refine ⟨hlog, ?_, ?_, rfl⟩
  · intro sid
    rw [hlog]
    exact log_filter_length subs sid es
  · show (publishAll { listeners := [(τ, subs)] } es).1.event_queue = es
    rw [publishAll_queue]
    rfl

/-- C6 witness: two BATTLE_ENDED events against three subscribers, the
middle one raising. -/
theorem C6_event_bus_witness :
    (∀ e ∈ esC6, e.event_type = TaskEvent.battle_ended) ∧
    ((publishAll { listeners := [(TaskEvent.battle_ended, subsC6)] } esC6).2
        = esC6.flatMap (fun e => subsC6.map (fun s => (s.1, e))) ∧
    (∀ sid : Nat,
      ((publishAll { listeners := [(TaskEvent.battle_ended, subsC6)] } esC6).2.filter
          (fun x => x.1 == sid)).length
        = (subsC6.filter (fun s => s.1 == sid)).length * esC6.length) ∧
    (publishAll { listeners := [(TaskEvent.battle_ended, subsC6)] } esC6).1.process_events.2
      = esC6 ∧
    ((publishAll
        { listeners := [(TaskEvent.battle_ended, subsC6)] } esC6).1.process_events.1.process_events).2
      = []) :=
  ⟨by decide, C6_event_bus TaskEvent.battle_ended subsC6 esC6 (by decide)⟩

/-- C7 counterexample: on the freshly constructed task `t7` — not paused:
pause signal clear and state PENDING, not PAUSED — `resume` is not a
no-op: it changes the context state to RUNNING and overwrites the resume
time, refuting the claim. -/
theorem C7_resume_counterexample :
    (t7.should_pause = false ∧ t7.context.state ≠ TaskState.paused) ∧
    ¬ ((t7.resume 5).context.state = t7.context.state ∧
       (t7.resume 5).context.resume_time = t7.context.resume_time) := by
  decide

/-- C7 (amended): `resume()` on a task that is not paused leaves both
cooperative signals unchanged (the pause signal was already clear, the
stop signal is untouched) and does not touch progress, start time or pause
time — but it is not a no-op: it unconditionally sets the context state to
RUNNING and overwrites the resume time with the current time. -/
theorem C7_resume_amended (t : InterruptibleTask) (now : Nat)
    (h1 : t.should_pause = false) (h2 : t.context.state ≠ TaskState.paused) :
    (t.resume now).should_pause = t.should_pause ∧
    (t.resume now).should_stop = t.should_stop ∧
    (t.resume now).context.state = TaskState.running ∧
    (t.resume now).context.resume_time = some now ∧
    (t.resume now).context.pause_time = t.context.pause_time ∧
    (t.resume now).context.start_time = t.context.start_time ∧
    (t.resume now).context.progress = t.context.progress := by
  simp [InterruptibleTask.resume, h1]

/-- C7 witness: the amended statement evaluated on the non-paused task
`t7`. -/
theorem C7_resume_amended_witness :
    (t7.should_pause = false ∧ t7.context.state ≠ TaskState.paused) ∧
    ((t7.resume 5).should_pause = t7.should_pause ∧
     (t7.resume 5).should_stop = t7.should_stop ∧
     (t7.resume 5).context.state = TaskState.running ∧
     (t7.resume 5).context.resume_time = some 5 ∧
     (t7.resume 5).context.pause_time = t7.context.pause_time ∧
     (t7.resume 5).context.start_time = t7.context.start_time ∧
     (t7.resume 5).context.progress = t7.context.progress) :=
  ⟨⟨by decide, by decide⟩, C7_resume_amended t7 5 (by decide) (by decide)⟩

/-- C8 counterexample: after registering ("always false", "clean") and then
("always true", "clean"), the deduplicated cleanup list holds one entry
while the firing predicate has index 1, so `check_resource_triggers`
returns none instead of the id "clean" that was registered paired with the
first predicate to return true — refuting the claim. -/
theorem C8_pairing_counterexample :
    check_resource_triggers st8 = none ∧
    check_resource_triggers st8 ≠ some "clean" := by
  decide

/-- C8 (amended): `check_resource_triggers` evaluates the predicates in
registration order, skipping — after catching and logging — those that
raise; when predicate `i` is the first to return true it returns entry `i`
of the **deduplicated** cleanup-task list (none when `i` is out of range),
which coincides with the id registered alongside that predicate only when
no duplicate cleanup id was registered; when no predicate returns true it
returns none.  `add_resource_trigger` always appends the predicate but
appends the cleanup id only when not already present. -/
theorem C8_check_triggers_amended (st : SchedulerState) (trigger : PredB)
    (cid : String) :
    check_resource_triggers st
        = (firstTrueIdx st.resource_triggers).bind (fun i => st.cleanup_tasks.get? i) ∧
    (add_resource_trigger st trigger cid).resource_triggers
        = st.resource_triggers ++ [trigger] ∧
    (add_resource_trigger st trigger cid).cleanup_tasks
        = (if cid ∈ st.cleanup_tasks then st.cleanup_tasks
           else st.cleanup_tasks ++ [cid]) := by
  refine ⟨?_, rfl, rfl⟩
  have h := checkTriggersFrom_eq st.cleanup_tasks st.resource_triggers 0
  simpa [check_resource_triggers] using h

/-- C9: a task's id is in the running registry exactly while its `execute`
call is on the stack: `_execute_task` inserts the id before `execute`, the
`finally` block removes it afterwards for every outcome of `execute`
(normal, interrupted or raising — a raised error is caught and never
propagates out of `_execute_task`), and a registry that did not contain
the id before is restored exactly. -/
theorem C9_running_registry {α : Type} (reg : List String) (t : InterruptibleTask)
    (now : Nat) (run : RunOutcome α) :
    t.task_id ∈ regInsert reg t.task_id ∧
    (execute_task reg t now run).1 = regErase (regInsert reg t.task_id) t.task_id ∧
    (t.task_id ∉ reg → (execute_task reg t now run).1 = reg) := by
  have hmem : t.task_id ∈ regInsert reg t.task_id := by
    unfold regInsert
    by_cases h : t.task_id ∈ reg
    · simpa [h]
    · simp [h]
  refine ⟨hmem, ?_, ?_⟩
  · simp [execute_task, hmem]
  · intro hnot
    have hfil : reg.filter (fun k => k != t.task_id) = reg := by
      apply List.filter_eq_self.mpr
      intro a ha
      simp only [bne_iff_ne, ne_eq, decide_eq_true_eq]
      intro hEq
      exact hnot (hEq ▸ ha)
    simp [execute_task, regInsert, hnot, regErase, List.filter_append, hfil]

/-- C9 witness: a task whose `execute` raises, run against the empty
registry, leaves the registry empty and the error contained. -/
theorem C9_running_registry_witness :
    t9.task_id ∉ ([] : List String) ∧
    (execute_task ([] : List String) t9 0
        (RunOutcome.error "task failure" : RunOutcome Unit)).1 = [] :=
  ⟨by decide,
   (C9_running_registry [] t9 0 (RunOutcome.error "task failure" : RunOutcome Unit)).2.2
     (by decide)⟩

/-- C10: `detect_current_page` is total (never raises): it returns the
first registered page state, in registration order, whose detector returns
true — detectors that raise are caught and logged and the remaining ones
still tried — and UNKNOWN when no detector returns true. -/
theorem C10_detect_first_true (ds : List (PageState × PredB)) :
    detect_current_page ds
      = ((ds.find? (fun e => e.2 == PredB.ret true)).map (fun e => e.1)).getD
          PageState.unknown := by
  induction ds with
  | nil => rfl
  | cons hd tl ih =>
    obtain ⟨s, d⟩ := hd
    match d with
    | PredB.ret true => simp [detect_current_page, List.find?]
    | PredB.ret false => simpa [detect_current_page, List.find?] using ih
    | PredB.raises e => simpa [detect_current_page, List.find?] using ih

end YYS
